import Mathlib

/-!
Verification of the LinkDetect URL classifier (`src/app.py`).

The development shallowly embeds the two pieces of the program that carry
logic: the feature extractor `extract_features_from_url` and the request
handler `predict` (extraction → scaling → prediction → label decoding →
override rule → detection logging).  External collaborators (the fitted
scaler, the model, the label encoder and the history CSV file) are
parameters of the embedding; their possible failures are modelled with
`Except` and a success flag for the sink.
-/

/-- Python `needle in haystack` restricted to checking at the front:
`startsWithL p s` holds when `p` is a prefix of `s`. -/
def startsWithL : List Char → List Char → Bool
  | [], _ => true
  | _ :: _, [] => false
  | p :: ps, c :: cs => p = c && startsWithL ps cs

/-- Python substring test `pat in s` (literal, character based). -/
def containsSubL (pat : List Char) : List Char → Bool
  | [] => startsWithL pat []
  | c :: rest => startsWithL pat (c :: rest) || containsSubL pat rest

/-- Python `str.split(sep)` with a one-character separator: the list of
pieces between occurrences of `sep`.  On the empty string Python returns
one empty piece, never the empty list. -/
def splitChar (sep : Char) : List Char → List (List Char)
  | [] => [[]]
  | c :: rest =>
    let ps := splitChar sep rest
    if c = sep then [] :: ps else (c :: ps.headI) :: ps.tail

/-- One `\d+` step of the regex engine: requires at least one leading
decimal digit and consumes the whole leading digit run. -/
def eatDigits : List Char → Option (List Char)
  | [] => none
  | c :: rest => if c.isDigit then some (rest.dropWhile Char.isDigit) else none

/-- The literal `\.` step of the regex engine. -/
def expectDot : List Char → Option (List Char)
  | [] => none
  | c :: rest => if c = '.' then some rest else none

/-- Python `re.match(r"\d+\.\d+\.\d+\.\d+", url)` viewed as a Bool:
an anchored-at-the-start match of digits, dot, digits, dot, digits, dot,
digits.  Because a digit never matches the literal dot, the greedy
digit-run strategy is exactly the regex's backtracking behaviour. -/
def matchIPv4 (cs : List Char) : Bool :=
  (((((((eatDigits cs).bind expectDot).bind eatDigits).bind expectDot).bind
      eatDigits).bind expectDot).bind eatDigits).isSome

/-- Python `re.search(r":\d+", url)` viewed as a Bool: somewhere in the
string a colon is immediately followed by a digit. -/
def hasColonDigit : List Char → Bool
  | [] => false
  | [_] => false
  | c :: d :: rest => (c = ':' && d.isDigit) || hasColonDigit (d :: rest)

/-- The six special characters counted by feature 2. -/
def specialChars : List Char := ['@', '?', '=', '&', '-', '_']

/-- The suspicious-keyword list of feature 13 (`suspicious_words` in the
source). -/
def suspicious_words : List String :=
  ["login", "verify", "secure", "account", "update", "confirm", "bank",
   "reset", "free", "click", "offer", "win", "paypal", "ebay"]

/-- The encoding markers of feature 6. -/
def encodingTags : List String := ["base64", "javascript:", "data:"]

/-- `extract_features_from_url` from `src/app.py`: the 14-entry feature
vector of a URL.  Every entry of the Python list is a nonnegative integer,
so the vector lives in `List Nat`; `url.lower()` is modelled with
`Char.toLower` and `c.isdigit()` / `c.isupper()` with `Char.isDigit` /
`Char.isUpper`. -/
def extract_features_from_url (url : String) : List Nat :=
  let cs := url.data
  let low := cs.map Char.toLower
  [ cs.length,
    cs.countP (fun c => c = '.'),
    (specialChars.map (fun c => cs.countP (fun x => x = c))).sum,
    if matchIPv4 cs then 1 else 0,
    if containsSubL ("https").data low then 1 else 0,
    (splitChar '/' cs).length,
    if encodingTags.any (fun t => containsSubL t.data low) then 1 else 0,
    cs.countP Char.isDigit,
    cs.countP Char.isUpper,
    if (splitChar '/' cs).length > 2 then ((splitChar '/' cs).getD 2 []).length else 0,
    if (splitChar '.' cs).length > 2 then (splitChar '.' cs).length - 2 else 0,
    if hasColonDigit cs then 1 else 0,
    if ('?') ∈ cs then ((splitChar '?' cs).getD 1 []).length else 0,
    if suspicious_words.any (fun w => containsSubL w.data low) then 1 else 0 ]

/-- The override markers of the hard override rule in `predict`. -/
def overrideTags : List String := ["vulnweb", "acunetix", "testphp", "demo"]

/-- The override test `any(tag in url.lower() for tag in [...])`. -/
def overrideHit (u : String) : Bool :=
  overrideTags.any (fun t => containsSubL t.data (u.data.map Char.toLower))

/-- The dangerous-label test `prediction_label.lower() in ["phishing",
"malicious", "unsafe"]`. -/
def isDangerous (lab : String) : Bool :=
  ["phishing", "malicious", "unsafe"].contains (String.mk (lab.data.map Char.toLower))

/-- A row of `classified_history.csv`: timestamp, URL, label. -/
structure DetectionRecord where
  timestamp : String
  url : String
  label : String
deriving DecidableEq

/-- The three response shapes of the `/predict` route: a 200 payload
`\x7b"prediction": label\x7d`, the 400 payload for a missing URL, and the
500 payload produced by the `except` clause. -/
inductive Response where
  | ok (prediction : String)
  | badRequest (error : String)
  | internalError (error : String)
deriving DecidableEq

/-- The external collaborators of the pipeline: the fitted scaler, the
model, the label encoder, and the history sink.  `σ` is the opaque type
of scaled rows.  Each of the three model steps may raise (dimension
mismatch, uninitialized model, …), modelled with `Except`; the CSV append
either succeeds (`sinkOk = true`) or raises with message `sinkErrMsg`. -/
structure Collaborators (σ : Type) where
  scalerTransform : List Nat → Except String σ
  modelPredict : σ → Except String Nat
  inverseTransform : Nat → Except String String
  sinkOk : Bool
  sinkErrMsg : String

/-- The `predict` route handler of `src/app.py`.  `url` is
`data.get('url')` (absent key ⇒ `none`); `now` is the ISO timestamp;
`history` is the current content of the history sink.  Returns the JSON
response together with the new sink content.  An exception anywhere in the
`try` block — including the CSV write — becomes a 500 `internalError`. -/
def predict {σ : Type} (env : Collaborators σ) (now : String)
    (history : List DetectionRecord) (url : Option String) :
    Response × List DetectionRecord :=
  match url with
  | none => (Response.badRequest "No URL provided", history)
  | some u =>
    if u = "" then (Response.badRequest "No URL provided", history)
    else
      match env.scalerTransform (extract_features_from_url u) with
      | Except.error e => (Response.internalError e, history)
      | Except.ok scaled =>
        match env.modelPredict scaled with
        | Except.error e => (Response.internalError e, history)
        | Except.ok idx =>
          match env.inverseTransform idx with
          | Except.error e => (Response.internalError e, history)
          | Except.ok lab0 =>
            let lab := if overrideHit u then "phishing" else lab0
            if isDangerous lab then
              if env.sinkOk then
                (Response.ok lab, history ++ [⟨now, u, lab⟩])
              else
                (Response.internalError env.sinkErrMsg, history)
            else
              (Response.ok lab, history)

/-! ### Spec-side definitions

These follow the wording of the specification, to be compared with the
definitions above that embed the source. -/

/-- From the spec: the substring after the first `'?'` character
(everything that follows it, further question marks included). -/
def specAfterFirstQM : List Char → List Char
  | [] => []
  | c :: rest => if c = '?' then rest else specAfterFirstQM rest

/-- The longest prefix not containing `sep` (used to phrase what
`split(sep)` pieces look like). -/
def upToChar (sep : Char) : List Char → List Char
  | [] => []
  | c :: rest => if c = sep then [] else c :: upToChar sep rest

/-- From the spec: the string begins, at position 0, with one or more
digits, ".", one or more digits, ".", one or more digits, ".", one or
more digits. -/
def SpecDottedQuad (cs : List Char) : Prop :=
  ∃ a b c d r : List Char,
    a ≠ [] ∧ b ≠ [] ∧ c ≠ [] ∧ d ≠ [] ∧
    (∀ x ∈ a, Char.isDigit x = true) ∧ (∀ x ∈ b, Char.isDigit x = true) ∧
    (∀ x ∈ c, Char.isDigit x = true) ∧ (∀ x ∈ d, Char.isDigit x = true) ∧
    cs = a ++ '.' :: (b ++ '.' :: (c ++ '.' :: (d ++ r)))

/-! ### Helper lemmas -/

lemma splitChar_length_pos (sep : Char) (cs : List Char) :
    1 ≤ (splitChar sep cs).length := by
  cases cs with
  | nil => simp [splitChar]
  | cons c rest =>
    simp only [splitChar]
    split <;> simp

lemma splitChar_headI (sep : Char) (cs : List Char) :
    (splitChar sep cs).headI = upToChar sep cs := by
  induction cs with
  | nil => simp [splitChar, upToChar]
  | cons c rest ih =>
    simp only [splitChar, upToChar]
    split
    · simp
    · simp [ih]

lemma splitChar_getD_one (cs : List Char) (h : ('?') ∈ cs) :
    (splitChar '?' cs).getD 1 [] = upToChar '?' (specAfterFirstQM cs) := by
  induction cs with
  | nil => cases h
  | cons c rest ih =>
    by_cases hc : c = '?'
    · subst hc
      have hne := splitChar_length_pos '?' rest
      cases hsp : splitChar '?' rest with
      | nil => simp [hsp] at hne
      | cons p ps =>
        have hh := splitChar_headI '?' rest
        rw [hsp] at hh
        simp at hh
        simp [splitChar, specAfterFirstQM, hsp, hh,
          List.getD_cons_succ, List.getD_cons_zero]
    · have hmem : ('?') ∈ rest := by
        cases h with
        | head => exact absurd rfl hc
        | tail _ h' => exact h'
      have hne := splitChar_length_pos '?' rest
      cases hsp : splitChar '?' rest with
      | nil => simp [hsp] at hne
      | cons p ps =>
        have hih := ih hmem
        rw [hsp, List.getD_cons_succ] at hih
        simp [List.getD] at hih
        simp [splitChar, specAfterFirstQM, hc, hsp,
          List.getD_cons_succ, List.getD_cons_zero, hih]

lemma dropWhile_digits_append (a : List Char)
    (hd : ∀ x ∈ a, Char.isDigit x = true)
    (c : Char) (hc : Char.isDigit c = false) (t : List Char) :
    (a ++ c :: t).dropWhile Char.isDigit = c :: t := by
  induction a with
  | nil => simp [List.dropWhile_cons, hc]
  | cons x a ih =>
    have hx : Char.isDigit x = true := hd x (by simp)
    have hrec := ih (fun y hy => hd y (by simp [hy]))
    simp [List.dropWhile_cons, hx, hrec]

lemma eatDigits_sound (cs r : List Char) (h : eatDigits cs = some r) :
    ∃ a, a ≠ [] ∧ (∀ x ∈ a, Char.isDigit x = true) ∧ cs = a ++ r := by
  cases cs with
  | nil => simp [eatDigits] at h
  | cons c rest =>
    simp only [eatDigits] at h
    by_cases hc : Char.isDigit c
    · rw [if_pos hc] at h
      have hr : rest.dropWhile Char.isDigit = r := Option.some.inj h
      refine ⟨c :: rest.takeWhile Char.isDigit, by simp, ?_, ?_⟩
      · intro x hx
        rcases List.mem_cons.mp hx with hx | hx
        · exact hx ▸ hc
        · exact List.mem_takeWhile_imp hx
      · rw [← hr]
        simp [List.takeWhile_append_dropWhile]
    · rw [if_neg hc] at h
      exact absurd h (by simp)

lemma eatDigits_complete (a : List Char) (ha : a ≠ [])
    (hd : ∀ x ∈ a, Char.isDigit x = true)
    (c : Char) (hc : Char.isDigit c = false) (t : List Char) :
    eatDigits (a ++ c :: t) = some (c :: t) := by
  cases a with
  | nil => exact absurd rfl ha
  | cons x a =>
    have hx : Char.isDigit x = true := hd x (by simp)
    have hrec := dropWhile_digits_append a (fun y hy => hd y (by simp [hy])) c hc t
    simp [eatDigits, hx, hrec]

lemma eatDigits_append_isSome (a : List Char) (ha : a ≠ [])
    (hd : ∀ x ∈ a, Char.isDigit x = true) (t : List Char) :
    (eatDigits (a ++ t)).isSome = true := by
  cases a with
  | nil => exact absurd rfl ha
  | cons x a =>
    have hx : Char.isDigit x = true := hd x (by simp)
    simp [eatDigits, hx]

lemma expectDot_eq_some (l r : List Char) :
    expectDot l = some r ↔ l = '.' :: r := by
  cases l with
  | nil => simp [expectDot]
  | cons c rest =>
    by_cases hc : c = '.'
    · subst hc
      simp [expectDot]
    · simp [expectDot, hc]

lemma matchIPv4_iff (cs : List Char) :
    matchIPv4 cs = true ↔ SpecDottedQuad cs := by
  constructor
  · intro h
    unfold matchIPv4 at h
    rw [Option.isSome_iff_exists] at h
    obtain ⟨r7, h7⟩ := h
    rw [Option.bind_eq_some] at h7
    obtain ⟨r6, h6, h7⟩ := h7
    rw [Option.bind_eq_some] at h6
    obtain ⟨r5, h5, h6⟩ := h6
    rw [Option.bind_eq_some] at h5
    obtain ⟨r4, h4, h5⟩ := h5
    rw [Option.bind_eq_some] at h4
    obtain ⟨r3, h3, h4⟩ := h4
    rw [Option.bind_eq_some] at h3
    obtain ⟨r2, h2, h3⟩ := h3
    rw [Option.bind_eq_some] at h2
    obtain ⟨r1, h1, h2⟩ := h2
    obtain ⟨a, ha, hda, rfl⟩ := eatDigits_sound _ _ h1
    rw [expectDot_eq_some] at h2
    subst h2
    obtain ⟨b, hb, hdb, rfl⟩ := eatDigits_sound _ _ h3
    rw [expectDot_eq_some] at h4
    subst h4
    obtain ⟨c, hc, hdc, rfl⟩ := eatDigits_sound _ _ h5
    rw [expectDot_eq_some] at h6
    subst h6
    obtain ⟨d, hd, hdd, rfl⟩ := eatDigits_sound _ _ h7
    exact ⟨a, b, c, d, r7, ha, hb, hc, hd, hda, hdb, hdc, hdd, rfl⟩
  · rintro ⟨a, b, c, d, r, ha, hb, hc, hd, hda, hdb, hdc, hdd, rfl⟩
    unfold matchIPv4
    rw [eatDigits_complete a ha hda '.' (by decide) _, Option.some_bind,
      (expectDot_eq_some _ _).mpr rfl, Option.some_bind,
      eatDigits_complete b hb hdb '.' (by decide) _, Option.some_bind,
      (expectDot_eq_some _ _).mpr rfl, Option.some_bind,
      eatDigits_complete c hc hdc '.' (by decide) _, Option.some_bind,
      (expectDot_eq_some _ _).mpr rfl, Option.some_bind]
    exact eatDigits_append_isSome d hd hdd r

lemma predict_snd_eq_or {σ : Type} (env : Collaborators σ) (now : String)
    (history : List DetectionRecord) (u : String) :
    (predict env now history (some u)).snd = history ∨
    ∃ lab, (predict env now history (some u)).fst = Response.ok lab ∧
      isDangerous lab = true ∧
      (predict env now history (some u)).snd = history ++ [⟨now, u, lab⟩] := by
  unfold predict
  dsimp only
  by_cases hu : u = ""
  · left
    simp [hu]
  · rw [if_neg hu]
    cases env.scalerTransform (extract_features_from_url u) with
    | error e => left; rfl
    | ok scaled =>
      dsimp only
      cases env.modelPredict scaled with
      | error e => left; rfl
      | ok idx =>
        dsimp only
        cases env.inverseTransform idx with
        | error e => left; rfl
        | ok lab0 =>
          dsimp only
          by_cases hd : isDangerous (if overrideHit u then "phishing" else lab0) = true
          · by_cases hs : env.sinkOk = true
            · right
              exact ⟨_, by simp [hd, hs], hd, by simp [hd, hs]⟩
            · left
              simp [hd, hs]
          · left
            simp [hd]

/-! ### Claim theorems -/

/-- C2: for every input string (the empty string and malformed URLs
included), `extract_features_from_url` is total and returns a vector of
exactly 14 numeric values. -/
theorem extract_length_14 (u : String) :
    (extract_features_from_url u).length = 14 := rfl

/-- C9: `extract_features_from_url` is deterministic — its result depends
only on the input string, so two calls on the same URL return identical
14-element vectors. -/
theorem extract_deterministic (u v : String) (h : u = v) :
    extract_features_from_url u = extract_features_from_url v :=
  congrArg extract_features_from_url h

theorem extract_deterministic_witness :
    extract_features_from_url "http://a.com/x" =
      extract_features_from_url "http://a.com/x" :=
  extract_deterministic "http://a.com/x" "http://a.com/x" rfl

/-- C10: feature index 5 (the "/"-segment count) is at least 1 for every
input, and on the empty string it is exactly 1, because splitting the
empty string yields one empty piece. -/
theorem feature5_segment_count_pos :
    (∀ u : String, 1 ≤ (extract_features_from_url u).getD 5 0)
    ∧ (extract_features_from_url "").getD 5 0 = 1 := by
  constructor
  · intro u
    have hx : (extract_features_from_url u).getD 5 0 =
        (splitChar '/' u.data).length := rfl
    rw [hx]
    exact splitChar_length_pos '/' u.data
  · rfl

/-- C3 counterexample: on `"a?b?c"` the substring after the first `'?'`
is `"b?c"` of length 3, but the code computes `split('?')[1]`, which is
`"b"` of length 1 — so feature 12 differs from the claimed value. -/
theorem feature12_ne_length_after_first_qm :
    ¬ ((extract_features_from_url "a?b?c").getD 12 0 =
        (specAfterFirstQM (String.data "a?b?c")).length) := by
  decide

/-- C3 amended: feature index 12 equals the length of the piece between
the first `'?'` and the following `'?'` (or the end of the string) when
the URL contains a `'?'`, and 0 otherwise.  For URLs with at most one
`'?'` this coincides with the length of everything after the first
`'?'`. -/
theorem feature12_query_length (u : String) :
    (extract_features_from_url u).getD 12 0 =
      if ('?') ∈ u.data then (upToChar '?' (specAfterFirstQM u.data)).length
      else 0 := by
  have hx : (extract_features_from_url u).getD 12 0 =
      if ('?') ∈ u.data then ((splitChar '?' u.data).getD 1 []).length
      else 0 := rfl
  rw [hx]
  by_cases h : ('?') ∈ u.data
  · rw [if_pos h, if_pos h, splitChar_getD_one u.data h]
  · rw [if_neg h, if_neg h]

/-- C8: feature index 3 is 1 exactly when the URL begins, at position 0,
with one or more digits, ".", one or more digits, ".", one or more
digits, ".", one or more digits, and is 0 otherwise. -/
theorem feature3_iff_dotted_quad (u : String) :
    ((extract_features_from_url u).getD 3 0 = 1 ↔ SpecDottedQuad u.data)
    ∧ ((extract_features_from_url u).getD 3 0 = 0 ↔ ¬ SpecDottedQuad u.data) := by
  have hx : (extract_features_from_url u).getD 3 0 =
      if matchIPv4 u.data then 1 else 0 := rfl
  rw [hx]
  by_cases h : matchIPv4 u.data
  · have hs : SpecDottedQuad u.data := (matchIPv4_iff u.data).mp h
    constructor <;> simp [h, hs]
  · have hs : ¬ SpecDottedQuad u.data :=
      fun hq => h ((matchIPv4_iff u.data).mpr hq)
    constructor <;> simp [h, hs]

/-- C4 counterexample: on `"http://192.168.1.1/login"` the IP flag
(feature index 3) is 0, not 1 — `re.match` is anchored at position 0 and
the string starts with `"http"`, not with digits. -/
theorem ip_url_feature3_ne_one :
    ¬ ((extract_features_from_url "http://192.168.1.1/login").getD 3 0 = 1) := by
  decide

/-- C4 amended: `extract_features_from_url "http://192.168.1.1/login"`
yields feature index 3 (IP flag) = 0 — the anchored dotted-quad pattern
does not match a URL that starts with a scheme — and feature index 13
(suspicious-word flag) = 1 (the URL contains "login"). -/
theorem ip_url_features :
    (extract_features_from_url "http://192.168.1.1/login").getD 3 0 = 0
    ∧ (extract_features_from_url "http://192.168.1.1/login").getD 13 0 = 1 := by
  decide

/-- C1: whenever the URL (case-insensitively) contains one of "vulnweb",
"acunetix", "testphp", "demo", and the scaler, model, decoder and sink
all succeed, the decoded label — whatever it is — is overwritten by
"phishing", the response is `ok "phishing"`, and a Detection Record
(timestamp, URL, "phishing") is appended to the history sink. -/
theorem predict_override_forces_phishing {σ : Type} (env : Collaborators σ)
    (now : String) (history : List DetectionRecord) (u : String)
    (sc : σ) (idx : Nat) (lab : String)
    (hov : overrideHit u = true)
    (h1 : env.scalerTransform (extract_features_from_url u) = Except.ok sc)
    (h2 : env.modelPredict sc = Except.ok idx)
    (h3 : env.inverseTransform idx = Except.ok lab)
    (h4 : env.sinkOk = true) :
    predict env now history (some u) =
      (Response.ok "phishing", history ++ [⟨now, u, "phishing"⟩]) := by
  have hu : ¬ (u = "") := by
    intro h
    rw [h] at hov
    exact absurd hov (by decide)
  have hdang : isDangerous "phishing" = true := by decide
  unfold predict
  dsimp only
  rw [if_neg hu, h1]
  dsimp only
  rw [h2]
  dsimp only
  rw [h3]
  dsimp only
  rw [if_pos hov, if_pos hdang, if_pos h4]

def demoEnv : Collaborators Unit :=
  ⟨fun _ => Except.ok (), fun _ => Except.ok 0,
   fun _ => Except.ok "benign", true, "sink failure"⟩

theorem predict_override_forces_phishing_witness :
    predict demoEnv "2025-01-01T00:00:00" [] (some "http://demo.com") =
      (Response.ok "phishing",
        [⟨"2025-01-01T00:00:00", "http://demo.com", "phishing"⟩]) :=
  predict_override_forces_phishing demoEnv "2025-01-01T00:00:00" []
    "http://demo.com" () 0 "benign" (by decide) rfl rfl rfl rfl

def sinkFailEnv : Collaborators Unit :=
  ⟨fun _ => Except.ok (), fun _ => Except.ok 0,
   fun _ => Except.ok "phishing", false, "disk full"⟩

/-- C5 counterexample: with collaborators that successfully decode the
label "phishing" but a failing history sink, the response for
`"http://a.com"` is the 500 `internalError`, not the successful label —
the sink-write failure does turn the response into an error. -/
theorem sink_failure_turns_response_into_error :
    predict sinkFailEnv "t0" [] (some "http://a.com") =
      (Response.internalError "disk full", [])
    ∧ ¬ ((predict sinkFailEnv "t0" [] (some "http://a.com")).fst =
          Response.ok "phishing") := by
  decide

/-- C5 amended: when extraction, scaling, prediction and decoding succeed
but the final label is dangerous and the history-sink append fails, the
whole request fails with a 500 `internalError` carrying the sink's error
message: the label is not returned, and the history is unchanged.  (The
CSV write sits inside the `try` block, so its exception is caught by the
generic handler.) -/
theorem predict_sink_failure_is_error {σ : Type} (env : Collaborators σ)
    (now : String) (history : List DetectionRecord) (u : String)
    (sc : σ) (idx : Nat) (lab : String)
    (hu : ¬ (u = ""))
    (h1 : env.scalerTransform (extract_features_from_url u) = Except.ok sc)
    (h2 : env.modelPredict sc = Except.ok idx)
    (h3 : env.inverseTransform idx = Except.ok lab)
    (hd : isDangerous (if overrideHit u then "phishing" else lab) = true)
    (h4 : env.sinkOk = false) :
    predict env now history (some u) =
      (Response.internalError env.sinkErrMsg, history) := by
  unfold predict
  dsimp only
  rw [if_neg hu, h1]
  dsimp only
  rw [h2]
  dsimp only
  rw [h3]
  dsimp only
  rw [if_pos hd, if_neg (by simp [h4])]

theorem predict_sink_failure_is_error_witness :
    predict sinkFailEnv "t0" [] (some "http://a.com") =
      (Response.internalError "disk full", []) :=
  predict_sink_failure_is_error sinkFailEnv "t0" [] "http://a.com"
    () 0 "phishing" (by decide) rfl rfl rfl (by decide) rfl

/-- C6: when the URL is absent (`None`) or the empty string, the handler
returns the 400 "No URL provided" error without consulting any
collaborator (the result is the same for every scaler, model, decoder
and sink), and the history sink is unchanged. -/
theorem predict_missing_url {σ : Type} (env : Collaborators σ) (now : String)
    (history : List DetectionRecord) (url : Option String)
    (h : url = none ∨ url = some "") :
    predict env now history url =
      (Response.badRequest "No URL provided", history) := by
  rcases h with rfl | rfl
  · rfl
  · unfold predict
    dsimp only
    rw [if_pos rfl]

def plainEnv : Collaborators Unit :=
  ⟨fun _ => Except.ok (), fun _ => Except.ok 0,
   fun _ => Except.ok "benign", true, "e"⟩

theorem predict_missing_url_witness :
    predict plainEnv "t0" [⟨"t", "u", "phishing"⟩] none =
      (Response.badRequest "No URL provided", [⟨"t", "u", "phishing"⟩]) :=
  predict_missing_url plainEnv "t0" [⟨"t", "u", "phishing"⟩] none (Or.inl rfl)

/-- C7: the history sink changes only when the request succeeds with a
final (post-override) label that is, case-insensitively, one of
"phishing", "malicious", "unsafe"; a successful response with a
non-dangerous label leaves the history untouched. -/
theorem history_changed_iff_dangerous {σ : Type} (env : Collaborators σ)
    (now : String) (history : List DetectionRecord) (u : String) :
    ((predict env now history (some u)).snd ≠ history →
      ∃ lab, (predict env now history (some u)).fst = Response.ok lab ∧
        isDangerous lab = true)
    ∧ (∀ lab, (predict env now history (some u)).fst = Response.ok lab →
        isDangerous lab = false →
        (predict env now history (some u)).snd = history) := by
  constructor
  · intro hne
    rcases predict_snd_eq_or env now history u with hh | ⟨lab, hf, hd, hs⟩
    · exact absurd hh hne
    · exact ⟨lab, hf, hd⟩
  · intro lab hf hd
    rcases predict_snd_eq_or env now history u with hh | ⟨lab2, hf2, hd2, hs2⟩
    · exact hh
    · rw [hf] at hf2
      have hlab : lab = lab2 := Response.ok.inj hf2
      rw [← hlab] at hd2
      rw [hd2] at hd
      exact absurd hd (by simp)

def benignEnv : Collaborators Unit :=
  ⟨fun _ => Except.ok (), fun _ => Except.ok 0,
   fun _ => Except.ok "benign", true, "e2"⟩

theorem history_changed_iff_dangerous_witness :
    (predict benignEnv "t0" [] (some "http://example.com")).snd =
      ([] : List DetectionRecord) :=
  (history_changed_iff_dangerous benignEnv "t0" [] "http://example.com").2
    "benign" (by decide) (by decide)
